import Mathlib

/-!
# ClinicalFire rule engine: shallow embedding and verification

This file embeds the rule-evaluation and action-dispatch engine of the
clinicalfire repository in Lean 4 and proves properties about it.

Embedded components, translated from the source:
* the JavaScript value model used by the engine (nested records, arrays,
  strings, numbers, booleans, null and undefined), with JavaScript numbers
  modelled as exact rationals;
* the `ConditionEvaluator` class of the lambda engine (operator table,
  field resolution by dot/bracket paths, logical combinators, per-condition
  error containment);
* the lambda rules engine (`executeWorkflow`, `evaluateTriggers`,
  `checkTriggerType`, `executeActions`), with external action handlers,
  the critical-alert queue, the wall clock, `Date` parsing and the regex
  engine abstracted as oracles;
* the string interpolator of the core `ActionExecutor`
  (`interpolateString`, `getNestedValue`).

Modelling conventions: thrown JavaScript exceptions are `Except.error`
carrying the message string; wall-clock durations are not modelled and are
rendered as `0`; object identity (reference equality) is modelled as
structural equality; JavaScript float arithmetic is modelled by exact
rational arithmetic.
-/

namespace ClinicalFire

/-- JavaScript runtime values as manipulated by the engine. Numbers are
modelled as exact rationals. -/
inductive Value where
  | vUndefined : Value
  | vNull : Value
  | vBool : Bool → Value
  | vNum : ℚ → Value
  | vStr : String → Value
  | vArr : List Value → Value
  | vObj : List (String × Value) → Value

/-- Structural equality on values, modelling JavaScript strict equality.
(For arrays and objects JavaScript compares references; this model compares
structurally, which agrees on all primitive comparisons the engine makes.) -/
def Value.strictEq : Value → Value → Bool
  | .vUndefined, .vUndefined => true
  | .vNull, .vNull => true
  | .vBool a, .vBool b => a == b
  | .vNum a, .vNum b => a == b
  | .vStr a, .vStr b => a == b
  | .vArr a, .vArr b => go a b
  | .vObj a, .vObj b => goF a b
  | _, _ => false
where
  go : List Value → List Value → Bool
    | [], [] => true
    | x :: xs, y :: ys => Value.strictEq x y && go xs ys
    | _, _ => false
  goF : List (String × Value) → List (String × Value) → Bool
    | [], [] => true
    | (k1, v1) :: xs, (k2, v2) :: ys => k1 == k2 && Value.strictEq v1 v2 && goF xs ys
    | _, _ => false

/-- JavaScript truthiness. -/
def jsTruthy : Value → Bool
  | .vUndefined => false
  | .vNull => false
  | .vBool b => b
  | .vNum q => !(q == 0)
  | .vStr s => !(s == "")
  | .vArr _ => true
  | .vObj _ => true

/-- The `typeof` operator (arrays and null report "object"). -/
def typeofJS : Value → String
  | .vUndefined => "undefined"
  | .vNull => "object"
  | .vBool _ => "boolean"
  | .vNum _ => "number"
  | .vStr _ => "string"
  | .vArr _ => "object"
  | .vObj _ => "object"

/-- Value of a list of decimal digit characters. -/
def digitsVal (ds : List Char) : ℕ :=
  ds.foldl (fun a c => a * 10 + (c.toNat - 48)) 0

/-- Split on a single-character separator (the engine only ever splits on
".", "/", "[" and "]"); matches JavaScript `split` for those separators. -/
def jsSplitOnChar (sep : Char) (s : String) : List String :=
  go s.toList []
where
  go : List Char → List Char → List String
    | [], acc => [String.mk acc.reverse]
    | x :: xs, acc =>
      if x = sep then String.mk acc.reverse :: go xs [] else go xs (x :: acc)

/-- ASCII lowercase of a string (JavaScript `toLowerCase` on the ASCII
operator/combinator names the engine handles). -/
def jsToLowerStr (s : String) : String :=
  String.mk (s.toList.map Char.toLower)

/-- ASCII uppercase of a string (JavaScript `toUpperCase`). -/
def jsToUpperStr (s : String) : String :=
  String.mk (s.toList.map Char.toUpper)

/-- Whitespace trim at both ends (JavaScript `trim`). -/
def jsTrim (s : String) : String :=
  String.mk (((s.toList.dropWhile (fun c => c.isWhitespace)).reverse.dropWhile
    (fun c => c.isWhitespace)).reverse)

/-- Character membership in a string (JavaScript `includes` of a one-character
needle). -/
def strContainsChar (s : String) (c : Char) : Bool :=
  s.toList.any (fun x => x == c)

/-- Canonical decimal digits of a string, for array-index property names. -/
def decToNat? (s : String) : Option ℕ :=
  if s ≠ "" ∧ s.toList.all (fun c => c.isDigit) then some (digitsVal s.toList) else none

/-- First binding of a key in an object literal. -/
def lookupField (fields : List (String × Value)) (k : String) : Option Value :=
  (fields.find? (fun p => p.1 == k)).map (fun p => p.2)

/-- A string that is the canonical decimal numeral of a natural number
(JavaScript array index property names). -/
def canonicalIndex (k : String) : Option ℕ :=
  match decToNat? k with
  | some i => if Nat.repr i = k then some i else none
  | none => none

/-- Property access `v[k]` on a value that is not null/undefined: object key
lookup, array index or length, string index or length; anything else is
`undefined`. -/
def objGet (v : Value) (k : String) : Value :=
  match v with
  | .vObj fields => (lookupField fields k).getD .vUndefined
  | .vArr xs =>
    if k = "length" then .vNum xs.length
    else
      match canonicalIndex k with
      | some i => (xs.get? i).getD .vUndefined
      | none => .vUndefined
  | .vStr s =>
    if k = "length" then .vNum s.length
    else
      match canonicalIndex k with
      | some i =>
        match s.toList.get? i with
        | some c => .vStr (String.mk [c])
        | none => .vUndefined
      | none => .vUndefined
  | _ => .vUndefined

/-- Property access that throws (as JavaScript does) on null/undefined. -/
def jsGet (v : Value) (k : String) : Except String Value :=
  match v with
  | .vUndefined => .error ("Cannot read properties of undefined (reading " ++ k ++ ")")
  | .vNull => .error ("Cannot read properties of null (reading " ++ k ++ ")")
  | _ => .ok (objGet v k)

/-- Optional-chaining access `v?.k`: undefined on null/undefined base. -/
def safeGet (v : Value) (k : String) : Value :=
  match v with
  | .vUndefined => .vUndefined
  | .vNull => .vUndefined
  | _ => objGet v k

/-- JavaScript `parseInt` on a string (decimal): optional whitespace, optional
sign, leading digits; `none` models NaN. -/
def jsParseInt (s : String) : Option ℤ :=
  let cs := s.toList.dropWhile (fun c => c.isWhitespace)
  let sgnCs : ℤ × List Char :=
    match cs with
    | c :: rest =>
      if c = '-' then (-1, rest) else if c = '+' then (1, rest) else (1, c :: rest)
    | [] => (1, [])
  let ds := sgnCs.2.takeWhile (fun c => c.isDigit)
  if ds.isEmpty then none else some (sgnCs.1 * (digitsVal ds : ℤ))

/-- JavaScript `parseFloat` on a string: optional whitespace, optional sign,
digits with optional fraction and optional well-formed exponent; `none`
models NaN. -/
def jsParseFloat (s : String) : Option ℚ :=
  let cs := s.toList.dropWhile (fun c => c.isWhitespace)
  let sgnCs : ℚ × List Char :=
    match cs with
    | c :: rest =>
      if c = '-' then (-1, rest) else if c = '+' then (1, rest) else (1, c :: rest)
    | [] => (1, [])
  let ip := sgnCs.2.takeWhile (fun c => c.isDigit)
  let cs1 := sgnCs.2.dropWhile (fun c => c.isDigit)
  let fpCs : List Char × List Char :=
    match cs1 with
    | c :: rest =>
      if c = '.' then (rest.takeWhile (fun d => d.isDigit), rest.dropWhile (fun d => d.isDigit))
      else ([], cs1)
    | [] => ([], [])
  if ip.isEmpty ∧ fpCs.1.isEmpty then none
  else
    let base : ℚ := sgnCs.1 * ((digitsVal ip : ℚ) + (digitsVal fpCs.1 : ℚ) / (10 ^ fpCs.1.length))
    let expPart : Option ℤ :=
      match fpCs.2 with
      | c :: rest =>
        if c = 'e' ∨ c = 'E' then
          let esgnCs : ℤ × List Char :=
            match rest with
            | d :: r2 =>
              if d = '-' then (-1, r2) else if d = '+' then (1, r2) else (1, d :: r2)
            | [] => (1, [])
          let eds := esgnCs.2.takeWhile (fun d => d.isDigit)
          if eds.isEmpty then none else some (esgnCs.1 * (digitsVal eds : ℤ))
        else none
      | [] => none
    some (match expPart with
          | some e => base * (10 : ℚ) ^ e
          | none => base)

/-- Decimal rendering of a rational, used to model JavaScript `String(number)`.
Integers render exactly; non-integers whose denominator divides a power of ten
render as terminating decimals; other rationals fall back to `num/den`
(JavaScript float formatting is approximated, which no verified claim
depends on). -/
def qToString (q : ℚ) : String :=
  if q.den = 1 then toString q.num
  else
    let rec findPow : ℕ → ℕ → Option ℕ
      | 0, _ => none
      | fuel + 1, k => if (10 ^ k) % q.den = 0 then some k else findPow fuel (k + 1)
    match findPow 40 1 with
    | some k =>
      let scaled : ℤ := q.num * ((10 ^ k : ℕ) / q.den : ℕ)
      let sgn := if scaled < 0 then "-" else ""
      let digits := toString scaled.natAbs
      let padded := (String.mk (List.replicate (k + 1 - digits.length) '0')) ++ digits
      let ipart := padded.dropRight k
      let fpart := padded.takeRight k
      sgn ++ ipart ++ "." ++ fpart
    | none => toString q.num ++ "/" ++ toString q.den

/-- JavaScript `String(v)` coercion. -/
def jsToString : Value → String
  | .vUndefined => "undefined"
  | .vNull => "null"
  | .vBool b => if b then "true" else "false"
  | .vNum q => qToString q
  | .vStr s => s
  | .vArr xs => String.intercalate "," (go xs)
  | .vObj _ => "[object Object]"
where
  go : List Value → List String
    | [] => []
    | v :: rest => jsToString v :: go rest

/-- JavaScript `||` default for an optional number (note `0` is falsy). -/
def jsOrQ (o : Option ℚ) (d : ℚ) : ℚ :=
  match o with
  | some q => if q = 0 then d else q
  | none => d

/-- JavaScript `||` default for an optional string (note `""` is falsy). -/
def jsOrS (o : Option String) (d : String) : String :=
  match o with
  | some s => if s = "" then d else s
  | none => d

/-- Falsiness of an optional string (absent or empty). -/
def jsFalsyOptS (o : Option String) : Bool :=
  match o with
  | none => true
  | some s => s == ""

/-- `n >= c` where `c` may be absent (comparison with undefined is false). -/
def jsGeN (n : ℚ) (c : Option ℚ) : Bool :=
  match c with
  | some c0 => decide (n ≥ c0)
  | none => false

/-- `n <= c` where `c` may be absent (comparison with undefined is false). -/
def jsLeN (n : ℚ) (c : Option ℚ) : Bool :=
  match c with
  | some c0 => decide (n ≤ c0)
  | none => false

/-- `n >= c` where `n` may be NaN/undefined (then false). -/
def geOptN (n : Option ℚ) (c : ℚ) : Bool :=
  match n with
  | some n0 => decide (n0 ≥ c)
  | none => false

/-! ## Data model of rules, conditions and execution records -/

/-- A per-test range record (the entries of the lab-value table, and the
`normalRange` override). Absent bounds compare as undefined (false). -/
structure NormalRange where
  min : Option ℚ := none
  max : Option ℚ := none
  criticalHigh : Option ℚ := none
  criticalLow : Option ℚ := none

/-- The `ranges` bag carried in condition metadata for clinical operators. -/
structure Ranges where
  criticalSystolic : Option ℚ := none
  criticalDiastolic : Option ℚ := none
  criticalLow : Option ℚ := none
  criticalHigh : Option ℚ := none
  unit : Option String := none
  testType : Option String := none
  normalRange : Option NormalRange := none

/-- Operator-specific condition metadata. -/
structure Metadata where
  flags : Option String := none
  operator : Option String := none
  unit : Option String := none
  valueType : Option String := none
  ranges : Option Ranges := none

/-- A condition: a field path, an operator name, an expected value, optional
metadata, and an optional nested condition group (in which case `operator`
acts as the group combinator). -/
inductive Condition where
  | mk (field : Option String) (operator : Option String) (value : Value)
       (metadata : Metadata) (conditions : Option (List Condition)) : Condition

def Condition.field : Condition → Option String
  | .mk f _ _ _ _ => f

def Condition.operator : Condition → Option String
  | .mk _ o _ _ _ => o

def Condition.value : Condition → Value
  | .mk _ _ v _ _ => v

def Condition.metadata : Condition → Metadata
  | .mk _ _ _ m _ => m

def Condition.conditions : Condition → Option (List Condition)
  | .mk _ _ _ _ c => c

/-- A trigger: a type tag plus optional conditions. -/
structure Trigger where
  type : String
  conditions : Option (List Condition) := none

/-- An action: a type tag, a parameter bag, optional guard conditions and an
optional delay in milliseconds. -/
structure Action where
  type : String
  params : Value := Value.vObj []
  conditions : Option (List Condition) := none
  delay : Option ℚ := none

/-- A workflow (rule) document. -/
structure Workflow where
  name : String := ""
  enabled : Bool := true
  triggers : List Trigger := []
  actions : List Action := []

/-- The execution context handed to the lambda engine. `data` may be any
JavaScript value (the engine throws if it dereferences null/undefined data). -/
structure ExecutionContext where
  workflowId : Option String := none
  executionId : Option String := none
  patientId : Option String := none
  triggerType : Option String := none
  triggeredBy : Option String := none
  data : Value := Value.vObj []

/-- The record returned by an external action handler. -/
structure HandlerOut where
  success : Bool
  result : Value := Value.vUndefined
  duration : ℚ := 0
  error : Option String := none

/-- The per-action outcome record accumulated by `executeActions`. -/
structure ActionResult where
  actionType : String
  success : Bool
  result : Value := Value.vUndefined
  duration : ℚ := 0
  error : Option String := none

/-- The overall outcome record returned by `executeWorkflow`. -/
structure ExecutionResult where
  success : Bool
  actionResults : List ActionResult
  duration : ℚ := 0
  error : Option String := none
  message : Option String := none

/-- Oracles for the parts of the JavaScript runtime the evaluator calls into:
the wall clock (`Date.now()`), `Date` parsing of a value to epoch
milliseconds (`none` models an invalid date), and the regex engine
(pattern, flags, input; errors model `new RegExp` throwing). -/
structure JsEnv where
  nowMs : ℚ := 0
  dateParse : Value → Option ℚ := fun _ => none
  regexTest : String → String → String → Except String Bool := fun _ _ _ => .ok false

/-! ## ConditionEvaluator: operator implementations -/

/-- `toNumber`: numbers pass through; strings are parsed with `parseFloat`;
anything else (or an unparsable string) throws. -/
def toNumber (value : Value) : Except String ℚ :=
  match value with
  | .vNum q => .ok q
  | .vStr s =>
    match jsParseFloat s with
    | some q => .ok q
    | none => .error ("Cannot convert \"" ++ s ++ "\" to number")
  | v => .error ("Cannot convert " ++ typeofJS v ++ " to number")

/-- `eq`: numeric pairs compare within an epsilon of 1e-5; anything else uses
strict equality. -/
def evaluateEquals (fieldValue expectedValue : Value) : Bool :=
  match fieldValue, expectedValue with
  | .vNum a, .vNum b => decide (|a - b| < (0.00001 : ℚ))
  | _, _ => Value.strictEq fieldValue expectedValue

/-- `ne`. -/
def evaluateNotEquals (fieldValue expectedValue : Value) : Bool :=
  !evaluateEquals fieldValue expectedValue

/-- `gt`: coerces both operands with `toNumber` (which can throw). -/
def evaluateGreaterThan (fieldValue expectedValue : Value) : Except String Bool := do
  let a ← toNumber fieldValue
  let b ← toNumber expectedValue
  pure (decide (a > b))

/-- `gte`. -/
def evaluateGreaterThanOrEqual (fieldValue expectedValue : Value) : Except String Bool := do
  let a ← toNumber fieldValue
  let b ← toNumber expectedValue
  pure (decide (a ≥ b))

/-- `lt`. -/
def evaluateLessThan (fieldValue expectedValue : Value) : Except String Bool := do
  let a ← toNumber fieldValue
  let b ← toNumber expectedValue
  pure (decide (a < b))

/-- `lte`. -/
def evaluateLessThanOrEqual (fieldValue expectedValue : Value) : Except String Bool := do
  let a ← toNumber fieldValue
  let b ← toNumber expectedValue
  pure (decide (a ≤ b))

/-- `in`: requires an array expected value, otherwise throws. -/
def evaluateIn (fieldValue expectedValue : Value) : Except String Bool :=
  match expectedValue with
  | .vArr xs => .ok (xs.any (fun x => Value.strictEq x fieldValue))
  | _ => .error "IN operator requires array value"

/-- `nin`. -/
def evaluateNotIn (fieldValue expectedValue : Value) : Except String Bool := do
  let b ← evaluateIn fieldValue expectedValue
  pure (!b)

/-- `.toLowerCase()` on a value: only strings have it, anything else throws. -/
def jsToLowerOf (v : Value) : Except String String :=
  match v with
  | .vStr s => .ok (jsToLowerStr s)
  | v => .error ("toLowerCase is not a function on " ++ typeofJS v)

/-- Substring test on character lists. -/
def startsWithL : List Char → List Char → Bool
  | _, [] => true
  | [], _ :: _ => false
  | a :: as, b :: bs => a == b && startsWithL as bs

/-- Containment of a character list in another. -/
def containsL : List Char → List Char → Bool
  | h, n => startsWithL h n ||
      match h with
      | [] => false
      | _ :: t => containsL t n

/-- Case-insensitive substring containment of strings. -/
def strContains (hay needle : String) : Bool :=
  containsL hay.toList needle.toList

/-- String prefix test (JavaScript `startsWith`). -/
def strStartsWith (s e : String) : Bool :=
  startsWithL s.toList e.toList

/-- String suffix test (JavaScript `endsWith`). -/
def strEndsWith (s e : String) : Bool :=
  startsWithL s.toList.reverse e.toList.reverse

/-- `contains`: case-insensitive substring for strings (the lowercase call on
the expected value throws when it is not a string), membership for arrays,
false otherwise. -/
def evaluateContains (fieldValue expectedValue : Value) : Except String Bool :=
  match fieldValue with
  | .vStr s => do
    let e ← jsToLowerOf expectedValue
    pure (strContains (jsToLowerStr s) e)
  | .vArr xs => .ok (xs.any (fun x => Value.strictEq x expectedValue))
  | _ => .ok false

/-- `startswith`. -/
def evaluateStartsWith (fieldValue expectedValue : Value) : Except String Bool :=
  match fieldValue with
  | .vStr s => do
    let e ← jsToLowerOf expectedValue
    pure (strStartsWith (jsToLowerStr s) e)
  | _ => .ok false

/-- `endswith`. -/
def evaluateEndsWith (fieldValue expectedValue : Value) : Except String Bool :=
  match fieldValue with
  | .vStr s => do
    let e ← jsToLowerOf expectedValue
    pure (strEndsWith (jsToLowerStr s) e)
  | _ => .ok false

/-- `regex`: non-string field values are false; the pattern is the expected
value coerced to string; flags default to "i"; the regex engine itself is the
`JsEnv` oracle. -/
def evaluateRegex (env : JsEnv) (fieldValue expectedValue : Value) (metadata : Metadata) :
    Except String Bool :=
  match fieldValue with
  | .vStr s =>
    let flags := jsOrS metadata.flags "i"
    env.regexTest (jsToString expectedValue) flags s
  | _ => .ok false

/-- `between`: the expected value must be a two-element array, otherwise the
operator throws; the field value and both bounds are coerced with `toNumber`. -/
def evaluateBetween (fieldValue expectedValue : Value) : Except String Bool :=
  match expectedValue with
  | .vArr xs =>
    if xs.length ≠ 2 then .error "BETWEEN operator requires array with 2 values [min, max]"
    else do
      let numValue ← toNumber fieldValue
      let minV ← toNumber (xs.getD 0 .vUndefined)
      let maxV ← toNumber (xs.getD 1 .vUndefined)
      pure (decide (numValue ≥ minV) && decide (numValue ≤ maxV))
  | _ => .error "BETWEEN operator requires array with 2 values [min, max]"

/-- `exists`: present means neither undefined nor null (falsy-but-present
values such as 0 and "" count as existing). -/
def evaluateExists (fieldValue : Value) : Bool :=
  match fieldValue with
  | .vUndefined => false
  | .vNull => false
  | _ => true

/-- `type`: compares the `typeof`-style tag (with arrays reported as "array")
against the expected value. -/
def evaluateType (fieldValue expectedValue : Value) : Bool :=
  let actualType :=
    match fieldValue with
    | .vArr _ => "array"
    | v => typeofJS v
  Value.strictEq (.vStr actualType) expectedValue

/-! ### Clinical-threshold operators -/

/-- Blood pressure: parses a "systolic/diastolic" string with `parseInt`
(non-strings are false, unparsable components behave as NaN) and compares
against the critical thresholds, defaulting to 180/110. -/
def evaluateBloodPressure (value _threshold : Value) (ranges : Ranges) : Except String Bool :=
  match value with
  | .vStr s =>
    let parts := (jsSplitOnChar '/' s).map jsParseInt
    let systolic : Option ℚ := ((parts.get? 0).getD none).map (fun i => (i : ℚ))
    let diastolic : Option ℚ := ((parts.get? 1).getD none).map (fun i => (i : ℚ))
    let criticalSystolic := jsOrQ ranges.criticalSystolic 180
    let criticalDiastolic := jsOrQ ranges.criticalDiastolic 110
    .ok (geOptN systolic criticalSystolic || geOptN diastolic criticalDiastolic)
  | _ => .ok false

/-- Heart rate: critical when at or below the critical-low threshold
(default 50) or at or above the critical-high threshold (default 120). -/
def evaluateHeartRate (value _threshold : Value) (ranges : Ranges) : Except String Bool := do
  let numValue ← toNumber value
  let criticalLow := jsOrQ ranges.criticalLow 50
  let criticalHigh := jsOrQ ranges.criticalHigh 120
  pure (decide (numValue ≤ criticalLow) || decide (numValue ≥ criticalHigh))

/-- Temperature: unit-aware thresholds, defaulting to 103.0/95.0 Fahrenheit
and 39.4/35.0 Celsius; critical when at or beyond either threshold. -/
def evaluateTemperature (value _threshold : Value) (ranges : Ranges) : Except String Bool := do
  let numValue ← toNumber value
  let unit := jsOrS ranges.unit "fahrenheit"
  let criticalHigh :=
    if unit = "celsius" then jsOrQ ranges.criticalHigh (39.4 : ℚ)
    else jsOrQ ranges.criticalHigh (103.0 : ℚ)
  let criticalLow :=
    if unit = "celsius" then jsOrQ ranges.criticalLow (35.0 : ℚ)
    else jsOrQ ranges.criticalLow (95.0 : ℚ)
  pure (decide (numValue ≥ criticalHigh) || decide (numValue ≤ criticalLow))

/-- The fixed table of critical ranges for named lab tests. -/
def labRanges (testType : String) : Option NormalRange :=
  match testType with
  | "glucose" =>
    some { min := some 70, max := some 100, criticalHigh := some 400, criticalLow := some 40 }
  | "creatinine" =>
    some { min := some (0.7 : ℚ), max := some (1.3 : ℚ), criticalHigh := some (4.0 : ℚ),
           criticalLow := some (0.3 : ℚ) }
  | "hemoglobin" =>
    some { min := some (12.0 : ℚ), max := some (16.0 : ℚ), criticalHigh := some (20.0 : ℚ),
           criticalLow := some (7.0 : ℚ) }
  | "potassium" =>
    some { min := some (3.5 : ℚ), max := some (5.1 : ℚ), criticalHigh := some (6.5 : ℚ),
           criticalLow := some (2.5 : ℚ) }
  | _ => none

/-- Lab value: looks up the test in the fixed table, falling back to the
`normalRange` metadata (which defaults to the empty record, so the source's
`if (!range) return false` guard is unreachable); critical when at or beyond
the critical-high or critical-low bound. -/
def evaluateLabValue (value _threshold : Value) (ranges : Ranges) : Except String Bool := do
  let numValue ← toNumber value
  let normalRange := ranges.normalRange.getD {}
  let range := (ranges.testType.bind labRanges).getD normalRange
  pure (jsGeN numValue range.criticalHigh || jsLeN numValue range.criticalLow)

/-- `critical_value`: dispatches on the `valueType` metadata (default
"numeric", which falls back to `gt`). -/
def evaluateCriticalValue (fieldValue expectedValue : Value) (metadata : Metadata) :
    Except String Bool :=
  let valueType := metadata.valueType.getD "numeric"
  let ranges := metadata.ranges.getD {}
  match valueType with
  | "blood_pressure" => evaluateBloodPressure fieldValue expectedValue ranges
  | "heart_rate" => evaluateHeartRate fieldValue expectedValue ranges
  | "temperature" => evaluateTemperature fieldValue expectedValue ranges
  | "lab_value" => evaluateLabValue fieldValue expectedValue ranges
  | _ => evaluateGreaterThan fieldValue expectedValue

/-! ### Operators that re-enter the operator table

`length`, `age` and `timerange` dispatch their sub-operator through the
instance's operator table (`this.operators[...]`); they receive that table as
the `dispatch` parameter. In the source the re-entry is bounded (the callee is
invoked without metadata, so its own sub-operator defaults to a terminal one);
the table itself (`operatorsLookup`) carries a recursion budget that is never
exhausted on those bounded chains. -/

/-- `length`: the length of a string/array or the key count of an object,
compared via the sub-operator named in metadata (default `eq`); other field
values are false. A sub-operator name missing from the table throws (in
JavaScript, calling `undefined`). -/
def evaluateLength (dispatch : String → Value → Value → Metadata → Option (Except String Bool))
    (fieldValue expectedValue : Value) (metadata : Metadata) : Except String Bool :=
  let lengthOpt : Option ℕ :=
    match fieldValue with
    | .vStr s => some s.length
    | .vArr xs => some xs.length
    | .vObj fields => some fields.length
    | _ => none
  match lengthOpt with
  | none => .ok false
  | some length =>
    let operator := jsOrS metadata.operator "eq"
    match dispatch operator (.vNum length) expectedValue {} with
    | some r => r
    | none => .error ("this.operators[" ++ operator ++ "] is not a function")

/-- `age`: the field value parsed as a birth date (invalid dates are false),
normalized to the metadata unit (default years) against the oracle clock, and
compared via the sub-operator (default `eq`). -/
def evaluateAge (env : JsEnv)
    (dispatch : String → Value → Value → Metadata → Option (Except String Bool))
    (fieldValue expectedValue : Value) (metadata : Metadata) : Except String Bool :=
  match env.dateParse fieldValue with
  | none => .ok false
  | some birthMs =>
    let ageMs := env.nowMs - birthMs
    let ageYears := ageMs / (1000 * 60 * 60 * 24 * (365.25 : ℚ))
    let operator := jsOrS metadata.operator "eq"
    let unit := jsOrS metadata.unit "years"
    let normalizedAge :=
      match unit with
      | "months" => ageYears * 12
      | "days" => ageMs / (1000 * 60 * 60 * 24)
      | "hours" => ageMs / (1000 * 60 * 60)
      | _ => ageYears
    match dispatch operator (.vNum normalizedAge) expectedValue {} with
    | some r => r
    | none => .error ("this.operators[" ++ operator ++ "] is not a function")

/-- `timerange`: absolute distance of the field value (parsed as a date) from
the oracle clock, in the metadata unit (default hours), compared via the
sub-operator (default `lte`). -/
def evaluateTimeRange (env : JsEnv)
    (dispatch : String → Value → Value → Metadata → Option (Except String Bool))
    (fieldValue expectedValue : Value) (metadata : Metadata) : Except String Bool :=
  match env.dateParse fieldValue with
  | none => .ok false
  | some ts =>
    let diffMs := |env.nowMs - ts|
    let unit := jsOrS metadata.unit "hours"
    let diffInUnit :=
      match unit with
      | "minutes" => diffMs / (1000 * 60)
      | "hours" => diffMs / (1000 * 60 * 60)
      | "days" => diffMs / (1000 * 60 * 60 * 24)
      | _ => diffMs / (1000 * 60 * 60)
    let operator := jsOrS metadata.operator "lte"
    match dispatch operator (.vNum diffInUnit) expectedValue {} with
    | some r => r
    | none => .error ("this.operators[" ++ operator ++ "] is not a function")

/-- The operator table built in the `ConditionEvaluator` constructor:
name-keyed dispatch to the operator implementations. `none` models a name
absent from the table. The `fuel` budget bounds the re-entrant dispatch of
`length`/`age`/`timerange`; in the source those chains have depth at most
three, so any budget of at least that depth is faithful. -/
def operatorsLookup (env : JsEnv) : ℕ → String → Value → Value → Metadata →
    Option (Except String Bool)
  | _, "eq", fv, ev, _ => some (.ok (evaluateEquals fv ev))
  | _, "ne", fv, ev, _ => some (.ok (evaluateNotEquals fv ev))
  | _, "gt", fv, ev, _ => some (evaluateGreaterThan fv ev)
  | _, "gte", fv, ev, _ => some (evaluateGreaterThanOrEqual fv ev)
  | _, "lt", fv, ev, _ => some (evaluateLessThan fv ev)
  | _, "lte", fv, ev, _ => some (evaluateLessThanOrEqual fv ev)
  | _, "in", fv, ev, _ => some (evaluateIn fv ev)
  | _, "nin", fv, ev, _ => some (evaluateNotIn fv ev)
  | _, "contains", fv, ev, _ => some (evaluateContains fv ev)
  | _, "startswith", fv, ev, _ => some (evaluateStartsWith fv ev)
  | _, "endswith", fv, ev, _ => some (evaluateEndsWith fv ev)
  | _, "regex", fv, ev, md => some (evaluateRegex env fv ev md)
  | _, "between", fv, ev, _ => some (evaluateBetween fv ev)
  | _, "exists", fv, _, _ => some (.ok (evaluateExists fv))
  | _, "type", fv, ev, _ => some (.ok (evaluateType fv ev))
  | fuel + 1, "length", fv, ev, md => some (evaluateLength (operatorsLookup env fuel) fv ev md)
  | 0, "length", _, _, _ => some (.error "operator recursion budget exhausted")
  | fuel + 1, "age", fv, ev, md => some (evaluateAge env (operatorsLookup env fuel) fv ev md)
  | 0, "age", _, _, _ => some (.error "operator recursion budget exhausted")
  | fuel + 1, "timerange", fv, ev, md =>
    some (evaluateTimeRange env (operatorsLookup env fuel) fv ev md)
  | 0, "timerange", _, _, _ => some (.error "operator recursion budget exhausted")
  | _, "critical_value", fv, ev, md => some (evaluateCriticalValue fv ev md)
  | _, _, _, _, _ => none

/-- Dispatch budget used at the evaluator's entry point; the source's
re-entrant operator chains never exceed depth three. -/
def operatorTableFuel : ℕ := 9

/-! ### Field resolution -/

/-- Replace the first "]" in a string (JavaScript `replace(']', '')`). -/
def removeFirstRBracket (s : String) : String :=
  match jsSplitOnChar ']' s with
  | [] => s
  | [x] => x
  | x :: y :: rest => x ++ y ++ String.join (rest.map (fun p => "]" ++ p))

/-- The per-segment walk of `getFieldValue`: null/undefined yields the absent
sentinel; a segment with brackets resolves an array index (out of bounds or
non-array yields absent); otherwise a plain property access. -/
def getFieldValuePath : Value → List String → Value
  | value, [] => value
  | value, key :: rest =>
    match value with
    | .vNull => .vUndefined
    | .vUndefined => .vUndefined
    | _ =>
      if strContainsChar key '[' && strContainsChar key ']' then
        let parts := jsSplitOnChar '[' key
        let arrayKey := parts.headD ""
        let indexStr := (parts.get? 1).getD ""
        let index := jsParseInt (removeFirstRBracket indexStr)
        match objGet value arrayKey, index with
        | .vArr xs, some i =>
          if 0 ≤ i ∧ i < (xs.length : ℤ) then getFieldValuePath ((xs.get? i.toNat).getD .vUndefined) rest
          else .vUndefined
        | _, _ => .vUndefined
      else getFieldValuePath (objGet value key) rest

/-- `getFieldValue`: dot-notation path resolution with bracketed array
indices; any failure yields the absent sentinel (undefined), never a throw. -/
def getFieldValue (data : Value) (fieldPath : String) : Value :=
  if fieldPath = "" then .vUndefined
  else getFieldValuePath data (jsSplitOnChar '.' fieldPath)

/-! ### Condition evaluation -/

/-- `applyLogicalOperator`: folds a list of per-condition booleans under the
named combinator (case-insensitive); unknown combinators behave as AND. -/
def applyLogicalOperator (results : List Bool) (operator : String) : Bool :=
  match jsToUpperStr operator with
  | "AND" => results.all (fun r => r == true)
  | "OR" => results.any (fun r => r == true)
  | "NOT" => results.all (fun r => r == false)
  | "XOR" => (results.filter (fun r => r == true)).length == 1
  | _ => results.all (fun r => r == true)

/-- `evaluateCondition`: requires a (truthy) field and operator, resolves the
field, and dispatches to the operator table; an unknown operator throws. -/
def evaluateCondition (env : JsEnv) (condition : Condition) (data : Value) :
    Except String Bool :=
  if jsFalsyOptS condition.field || jsFalsyOptS condition.operator then
    .error "Condition must have field and operator"
  else
    let fieldValue := getFieldValue data (condition.field.getD "")
    match operatorsLookup env operatorTableFuel (condition.operator.getD "") fieldValue
        condition.value condition.metadata with
    | none => .error ("Unknown operator: " ++ condition.operator.getD "")
    | some r => r

mutual

/-- `evaluateConditions`: an empty (or absent) condition list is vacuously
true; otherwise each condition is scored (errors caught per condition) and
the scores are folded by `applyLogicalOperator`. The source defaults
`logicalOperator` to "AND"; callers here pass it explicitly. -/
def evaluateConditions (env : JsEnv) (conditions : List Condition) (data : Value)
    (logicalOperator : String) : Bool :=
  if conditions.isEmpty then true
  else applyLogicalOperator (collectConditionResults env conditions data) logicalOperator

/-- The loop body of `evaluateConditions`: one boolean score per condition. -/
def collectConditionResults (env : JsEnv) : List Condition → Value → List Bool
  | [], _ => []
  | condition :: rest, data =>
    conditionResult env condition data :: collectConditionResults env rest data

/-- The score of a single condition inside `evaluateConditions`: a nested
group recurses with its own combinator (default AND); a leaf condition is
evaluated with any thrown error caught and scored false. -/
def conditionResult (env : JsEnv) (condition : Condition) (data : Value) : Bool :=
  match condition with
  | .mk _ op _ _ (some nested) => evaluateConditions env nested data (jsOrS op "AND")
  | .mk f op v md none =>
    match evaluateCondition env (.mk f op v md none) data with
    | .ok b => b
    | .error _ => false

end

/-! ## The lambda rules engine -/

/-- `checkTriggerType`: the disjunction of type-match rules, evaluated left to
right with JavaScript short-circuiting; the accesses to `context.data` throw
when `data` is null/undefined. A declared type of "manual" matches
unconditionally once control reaches that disjunct. -/
def checkTriggerType (triggerType : String) (context : ExecutionContext) :
    Except String Bool :=
  if context.triggerType = some triggerType then .ok true
  else do
    let dataTriggerType ← jsGet context.data "triggerType"
    if Value.strictEq dataTriggerType (.vStr triggerType) then pure true
    else if triggerType = "manual" then pure true
    else if triggerType = "scheduled" then pure (context.triggerType = some "scheduled")
    else if triggerType = "webhook" then pure (context.triggerType = some "webhook")
    else if triggerType = "lab_result" then do
      let dataType ← jsGet context.data "type"
      pure (Value.strictEq dataType (.vStr "lab_result"))
    else if triggerType = "vital_signs" then do
      let dataType ← jsGet context.data "type"
      pure (Value.strictEq dataType (.vStr "vital_signs"))
    else if triggerType = "medication" then do
      let dataType ← jsGet context.data "type"
      pure (Value.strictEq dataType (.vStr "medication"))
    else if triggerType = "alert" then do
      let dataType ← jsGet context.data "type"
      pure (Value.strictEq dataType (.vStr "alert"))
    else pure false

/-- `evaluateTriggers`, generic in the condition evaluator it delegates to
(the source calls `conditionEvaluator.evaluateConditions`): triggers are
scanned in declaration order; a type mismatch skips the trigger; a type match
with a non-empty condition list delegates to `evalC` inside a try/catch whose
error path continues to the next trigger; a type match with no conditions
returns a match immediately. -/
def evaluateTriggersGen (evalC : List Condition → Value → Except String Bool) :
    List Trigger → ExecutionContext → Except String Bool
  | [], _ => .ok false
  | trigger :: rest, context => do
    let triggerTypeMatches ← checkTriggerType trigger.type context
    if !triggerTypeMatches then evaluateTriggersGen evalC rest context
    else
      match trigger.conditions with
      | some conds =>
        if conds.length > 0 then
          match evalC conds context.data with
          | .ok true => pure true
          | .ok false => evaluateTriggersGen evalC rest context
          | .error _ => evaluateTriggersGen evalC rest context
        else pure true
      | none => pure true

/-- The engine's trigger matcher, instantiated with the real condition
evaluator (which is total, so its try/catch arm is vacuous). -/
def evaluateTriggers (env : JsEnv) (workflow : Workflow) (context : ExecutionContext) :
    Except String Bool :=
  evaluateTriggersGen (fun conds data => .ok (evaluateConditions env conds data "AND"))
    workflow.triggers context

/-- `executeActions`: actions in declaration order; a failing guard skips the
action without recording anything; otherwise the external handler's outcome
is recorded (its thrown errors recorded as a failed result), and a critical
`send_alert` additionally posts to the alert queue, whose thrown error is
caught by the same per-action catch and recorded as a second failed result
for that action. Handler and alert transport are oracles; wall-clock
durations are rendered as 0. -/
def executeActions (env : JsEnv)
    (handler : Action → ExecutionContext → Except String HandlerOut)
    (alerter : Action → ExecutionContext → Except String Unit) :
    List Action → ExecutionContext → List ActionResult
  | [], _ => []
  | action :: rest, context =>
    let skipped :=
      match action.conditions with
      | some conds => conds.length > 0 && !(evaluateConditions env conds context.data "AND")
      | none => false
    if skipped then executeActions env handler alerter rest context
    else
      let entries :=
        match handler action context with
        | .ok r =>
          let base : ActionResult :=
            { actionType := action.type, success := r.success, result := r.result,
              duration := r.duration,
              error := match r.error with
                       | some e => if e = "" then none else some e
                       | none => none }
          if action.type = "send_alert" &&
              Value.strictEq (safeGet action.params "priority") (.vStr "critical") then
            match alerter action context with
            | .ok _ => [base]
            | .error e =>
              [base, { actionType := action.type, success := false, error := some e }]
          else [base]
        | .error e => [{ actionType := action.type, success := false, error := some e }]
      entries ++ executeActions env handler alerter rest context

/-- The body of `executeWorkflow` (the try block): disabled workflows fail
immediately; no trigger match reports success with an empty result list and
the no-match message; otherwise all actions run and overall success is the
conjunction of the per-action success flags. Errors of this computation model
exceptions escaping the pipeline. -/
def executeWorkflowBody (env : JsEnv)
    (handler : Action → ExecutionContext → Except String HandlerOut)
    (alerter : Action → ExecutionContext → Except String Unit)
    (workflow : Workflow) (executionContext : ExecutionContext) :
    Except String ExecutionResult :=
  if !workflow.enabled then
    .ok { success := false, actionResults := [], error := some "Workflow is disabled" }
  else do
    let triggerMatched ← evaluateTriggers env workflow executionContext
    if !triggerMatched then
      pure { success := true, actionResults := [], message := some "No triggers matched" }
    else
      let actionResults := executeActions env handler alerter workflow.actions executionContext
      pure { success := actionResults.all (fun r => r.success), actionResults := actionResults }

/-- `executeWorkflow`: the public entry point; the top-level catch converts
any escaping exception into a failed result carrying the exception message. -/
def executeWorkflow (env : JsEnv)
    (handler : Action → ExecutionContext → Except String HandlerOut)
    (alerter : Action → ExecutionContext → Except String Unit)
    (workflow : Workflow) (executionContext : ExecutionContext) : ExecutionResult :=
  match executeWorkflowBody env handler alerter workflow executionContext with
  | .ok r => r
  | .error e => { success := false, actionResults := [], error := some e }

/-! ## The core ActionExecutor string interpolator -/

/-- The execution context of the core (TypeScript) engine, as consumed by the
interpolator. The `timestamp` Date is modelled by its ISO rendering. -/
structure CoreExecutionContext where
  workflowId : String := ""
  executionId : String := ""
  timestampIso : String := ""
  patientId : Option String := none
  userId : Option String := none
  data : Value := Value.vObj []

/-- The core engine's `getNestedValue`: a reduce over the dot-separated path
that yields undefined as soon as the accumulator is falsy or the next key is
absent. -/
def getNestedValue (obj : Value) (path : String) : Value :=
  (jsSplitOnChar '.' path).foldl
    (fun current key =>
      if jsTruthy current && !(Value.strictEq (objGet current key) .vUndefined) then
        objGet current key
      else .vUndefined)
    obj

/-- The open-brace character, written by code point. -/
def lbChar : Char := Char.ofNat 123

/-- The close-brace character, written by code point. -/
def rbChar : Char := Char.ofNat 125

/-- Resolution of one interpolation placeholder, given the raw characters
between the braces: (a) a context-data key of the trimmed name; (b) the
well-known context fields; (c) for dotted names, a nested lookup into context
data; otherwise the original placeholder text is returned verbatim. -/
def resolveVariable (context : CoreExecutionContext) (varChars : List Char) : String :=
  let trimmedVar := jsTrim (String.mk varChars)
  let matchStr := String.mk (lbChar :: lbChar :: (varChars ++ [rbChar, rbChar]))
  if !(Value.strictEq (objGet context.data trimmedVar) .vUndefined) then
    jsToString (objGet context.data trimmedVar)
  else if trimmedVar = "executionId" then context.executionId
  else if trimmedVar = "workflowId" then context.workflowId
  else if trimmedVar = "timestamp" then context.timestampIso
  else if trimmedVar = "patientId" then context.patientId.getD ""
  else if trimmedVar = "userId" then context.userId.getD ""
  else if strContainsChar trimmedVar '.' then
    let value := getNestedValue context.data trimmedVar
    if !(Value.strictEq value .vUndefined) then jsToString value else matchStr
  else matchStr

/-- Extraction of one regex match at the current position: a non-empty run of
non-close-brace characters followed by two close braces. -/
def extractToken (cs : List Char) : Option (List Char × List Char) :=
  let tok := cs.takeWhile (fun c => c ≠ rbChar)
  let after := cs.dropWhile (fun c => c ≠ rbChar)
  if tok.isEmpty then none
  else
    match after with
    | a :: b :: rest => if a = rbChar ∧ b = rbChar then some (tok, rest) else none
    | _ => none

/-- The global-regex replacement scan of `interpolateString`: at each
position, a placeholder match is replaced via `resolveVariable` and scanning
resumes after it; otherwise one character is copied. The fuel equals the
remaining length at the entry point, so the zero-fuel arm is unreachable. -/
def interpolateGo (context : CoreExecutionContext) : ℕ → List Char → List Char
  | 0, l => l
  | _ + 1, [] => []
  | fuel + 1, c :: rest =>
    if c = lbChar then
      match rest with
      | c2 :: rest2 =>
        if c2 = lbChar then
          match extractToken rest2 with
          | some (tok, rest3) =>
            (resolveVariable context tok).toList ++ interpolateGo context fuel rest3
          | none => c :: interpolateGo context fuel rest
        else c :: interpolateGo context fuel rest
      | [] => [c]
    else c :: interpolateGo context fuel rest

/-- `interpolateString`: replaces every complete placeholder in the template. -/
def interpolateString (context : CoreExecutionContext) (template : String) : String :=
  String.mk (interpolateGo context template.toList.length template.toList)

/-! ## Helper lemmas -/

/-- Strict equality against undefined detects exactly the undefined value. -/
theorem strictEq_undefined_iff (v : Value) :
    Value.strictEq v .vUndefined = true ↔ v = .vUndefined := by
  cases v <;> simp [Value.strictEq]

/-- Property access on a non-null, non-undefined base never throws. -/
theorem jsGet_ok (v : Value) (k : String) (h1 : v ≠ Value.vUndefined)
    (h2 : v ≠ Value.vNull) : jsGet v k = .ok (objGet v k) := by
  cases v <;> simp_all [jsGet]

/-- Path resolution starting from the undefined sentinel stays undefined. -/
theorem getFieldValuePath_undefined (keys : List String) :
    getFieldValuePath Value.vUndefined keys = Value.vUndefined := by
  cases keys <;> rfl

/-- Bind on `Except` applied to a success. -/
theorem exceptBind_ok {α β : Type} (a : α) (f : α → Except String β) :
    (Except.ok a >>= f : Except String β) = f a := rfl

/-- Bind on `Except` applied to an error. -/
theorem exceptBind_error {α β : Type} (e : String) (f : α → Except String β) :
    (Except.error e >>= f : Except String β) = .error e := rfl

/-- `pure` on `Except` is `ok`. -/
theorem exceptPure {α : Type} (a : α) : (pure a : Except String α) = .ok a := rfl

/-- The loop body of `evaluateConditions` scores each condition in order. -/
theorem collectConditionResults_eq_map (env : JsEnv) (conds : List Condition) (data : Value) :
    collectConditionResults env conds data =
      conds.map (fun c => conditionResult env c data) := by
  induction conds with
  | nil => simp [collectConditionResults]
  | cons c rest ih => simp [collectConditionResults, ih]

/-! ## Claim C4: logical combinators -/

/-- C4: for every finite list of per-condition boolean results, the
combinator fold returns: under AND, true iff every condition is true; under
OR, true iff at least one is true; under XOR, true iff exactly one is true;
under NOT, true iff every condition is false. -/
theorem C4_combinator_fold (results : List Bool) :
    (applyLogicalOperator results "AND" = true ↔ ∀ r ∈ results, r = true) ∧
    (applyLogicalOperator results "OR" = true ↔ ∃ r ∈ results, r = true) ∧
    (applyLogicalOperator results "XOR" = true ↔ results.count true = 1) ∧
    (applyLogicalOperator results "NOT" = true ↔ ∀ r ∈ results, r = false) := by
  have hAND : applyLogicalOperator results "AND" = results.all (fun r => r == true) := rfl
  have hOR : applyLogicalOperator results "OR" = results.any (fun r => r == true) := rfl
  have hXOR : applyLogicalOperator results "XOR" =
      ((results.filter (fun r => r == true)).length == 1) := rfl
  have hNOT : applyLogicalOperator results "NOT" = results.all (fun r => r == false) := rfl
  refine ⟨?_, ?_, ?_, ?_⟩
  · rw [hAND]; simp [List.all_eq_true]
  · rw [hOR]; simp [List.any_eq_true]
  · rw [hXOR]
    have hc : results.count true = (results.filter (fun r => r == true)).length := by
      simp [List.count, List.countP_eq_length_filter]
    rw [hc]; simp
  · rw [hNOT]; simp [List.all_eq_true]

/-- Witness for C4: the OR fold at a concrete list with one true entry. -/
theorem C4_combinator_fold_witness :
    applyLogicalOperator [false, true] "OR" = true ∧
    applyLogicalOperator [false, true] "AND" = false := by
  constructor
  · exact (C4_combinator_fold [false, true]).2.1.mpr ⟨true, by simp, rfl⟩
  · have h := (C4_combinator_fold [false, true]).1
    by_contra hc
    simp only [Bool.not_eq_false] at hc
    have := h.mp hc false (by simp)
    simp at this

/-! ## Claim C3: clinical-threshold operators -/

/-- C3 counterexample: the claim asserts the clinical operators "return false
when the value merely equals the critical threshold", but the source compares
with `>=`/`<=`: a glucose value of exactly 400 (the critical-high bound), a
temperature of exactly 103.0 F, a heart rate of exactly 120 and a systolic
pressure of exactly 180 all evaluate to critical (true). -/
theorem C3_counterexample_equality_is_critical :
    evaluateLabValue (.vNum 400) .vNull { testType := some "glucose" } = .ok true ∧
    evaluateTemperature (.vNum 103) .vNull {} = .ok true ∧
    evaluateHeartRate (.vNum 120) .vNull {} = .ok true ∧
    evaluateBloodPressure (.vStr "180/70") .vNull {} = .ok true := by
  refine ⟨?_, ?_, ?_, ?_⟩
  · simp [evaluateLabValue, toNumber, labRanges, jsGeN, jsLeN]
  · simp [evaluateTemperature, toNumber, jsOrS, jsOrQ]
    norm_num
  · simp [evaluateHeartRate, toNumber, jsOrQ]
  · simp [evaluateBloodPressure, jsParseInt, jsSplitOnChar, jsSplitOnChar.go, digitsVal,
      geOptN, jsOrQ]

/-- C3 (amended): each clinical-threshold operator returns true exactly when
the value is at or beyond a critical threshold — value ≥ critical-high or
value ≤ critical-low (for blood pressure: systolic ≥ 180 or diastolic ≥ 110
after parsing the "systolic/diastolic" string) — so equality with the
critical threshold counts as critical. Default ranges: heart rate 50/120,
temperature 103.0/95.0 Fahrenheit and 39.4/35.0 Celsius, and the fixed lab
table (glucose 400/40, creatinine 4.0/0.3, hemoglobin 20.0/7.0, potassium
6.5/2.5). -/
theorem C3_clinical_threshold_inclusive (q : ℚ) (s : String) (a b : ℤ) :
    (evaluateHeartRate (.vNum q) .vNull {} =
      .ok (decide (q ≤ 50) || decide (q ≥ 120))) ∧
    (evaluateTemperature (.vNum q) .vNull {} =
      .ok (decide (q ≥ (103.0 : ℚ)) || decide (q ≤ (95.0 : ℚ)))) ∧
    (evaluateTemperature (.vNum q) .vNull { unit := some "celsius" } =
      .ok (decide (q ≥ (39.4 : ℚ)) || decide (q ≤ (35.0 : ℚ)))) ∧
    (evaluateLabValue (.vNum q) .vNull { testType := some "glucose" } =
      .ok (decide (q ≥ 400) || decide (q ≤ 40))) ∧
    (evaluateLabValue (.vNum q) .vNull { testType := some "creatinine" } =
      .ok (decide (q ≥ (4.0 : ℚ)) || decide (q ≤ (0.3 : ℚ)))) ∧
    (evaluateLabValue (.vNum q) .vNull { testType := some "hemoglobin" } =
      .ok (decide (q ≥ (20.0 : ℚ)) || decide (q ≤ (7.0 : ℚ)))) ∧
    (evaluateLabValue (.vNum q) .vNull { testType := some "potassium" } =
      .ok (decide (q ≥ (6.5 : ℚ)) || decide (q ≤ (2.5 : ℚ)))) ∧
    ((jsSplitOnChar '/' s).map jsParseInt = [some a, some b] →
      evaluateBloodPressure (.vStr s) .vNull {} =
        .ok (decide ((a : ℚ) ≥ 180) || decide ((b : ℚ) ≥ 110))) := by
  refine ⟨rfl, rfl, rfl, rfl, rfl, rfl, rfl, fun h => ?_⟩
  simp [evaluateBloodPressure, h, geOptN, jsOrQ]

/-- Witness for C3: the blood-pressure characterization applied at the
concrete reading "185/80" (critical: systolic 185 ≥ 180), and the glucose
characterization at 401. -/
theorem C3_clinical_threshold_inclusive_witness :
    evaluateBloodPressure (.vStr "185/80") .vNull {} = .ok true ∧
    evaluateLabValue (.vNum 401) .vNull { testType := some "glucose" } = .ok true := by
  constructor
  · have h := (C3_clinical_threshold_inclusive 0 "185/80" 185 80).2.2.2.2.2.2.2
      (by simp [jsSplitOnChar, jsSplitOnChar.go, jsParseInt, digitsVal])
    rw [h]; norm_num
  · have h := (C3_clinical_threshold_inclusive 401 "" 0 0).2.2.2.1
    rw [h]; norm_num


/-! ## Claim C5: per-condition error containment -/

/-- Example payload for the error-containment claim. -/
def exData5 : Value := .vObj [("value", .vNum 85), ("note", .vObj [])]

/-- A malformed `between` condition: the expected value is a single number,
not a two-element array. -/
def cBetweenBad : Condition := .mk (some "value") (some "between") (.vNum 70) {} none

/-- A well-formed `between` condition over the range [70, 100]. -/
def cBetweenGood : Condition :=
  .mk (some "value") (some "between") (.vArr [.vNum 70, .vNum 100]) {} none

/-- A `between` condition whose field value 85 is outside [90, 100]. -/
def cBetweenMiss : Condition :=
  .mk (some "value") (some "between") (.vArr [.vNum 90, .vNum 100]) {} none

/-- A condition naming an operator absent from the table. -/
def cUnknownOp : Condition := .mk (some "value") (some "frobnicate") (.vNum 70) {} none

/-- A `gt` condition whose field value is an object, which `toNumber`
cannot coerce. -/
def cUncoercible : Condition := .mk (some "note") (some "gt") (.vNum 1) {} none

/-- C5: `evaluateConditions` is a total function (it cannot throw): every
condition in the list is scored — a nested group recursively, a leaf by
`evaluateCondition` with any raised error caught and scored false — and the
scores of all conditions are folded by the combinator. In particular a
malformed `between` expected value, an unknown operator name and an
uncoercible numeric operand each raise inside the single-condition evaluator,
are contained, score that condition false, and leave the remaining
conditions' evaluation intact. -/
theorem C5_condition_errors_contained (env : JsEnv) (conds : List Condition)
    (data : Value) (logicalOperator : String) :
    (evaluateConditions env conds data logicalOperator =
      if conds.isEmpty then true
      else applyLogicalOperator (conds.map (fun c => conditionResult env c data))
        logicalOperator) ∧
    (evaluateBetween (.vNum 85) (.vNum 70) =
      .error "BETWEEN operator requires array with 2 values [min, max]") ∧
    (evaluateCondition env cUnknownOp exData5 = .error "Unknown operator: frobnicate") ∧
    (evaluateCondition env cUncoercible exData5 = .error "Cannot convert object to number") ∧
    (evaluateConditions env [cBetweenBad] exData5 "AND" = false) ∧
    (evaluateConditions env [cUnknownOp] exData5 "AND" = false) ∧
    (evaluateConditions env [cUncoercible] exData5 "AND" = false) ∧
    (evaluateConditions env [cBetweenBad, cBetweenGood] exData5 "OR" = true) ∧
    (evaluateConditions env [cBetweenGood] exData5 "AND" = true) ∧
    (evaluateConditions env [cBetweenMiss] exData5 "AND" = false) := by
  refine ⟨?_, rfl, rfl, rfl, ?_, ?_, ?_, ?_, ?_, ?_⟩
  · rw [evaluateConditions, collectConditionResults_eq_map]
  · rw [evaluateConditions, collectConditionResults_eq_map]
    show applyLogicalOperator [conditionResult env cBetweenBad exData5] "AND" = false
    rw [cBetweenBad, conditionResult]; rfl
  · rw [evaluateConditions, collectConditionResults_eq_map]
    show applyLogicalOperator [conditionResult env cUnknownOp exData5] "AND" = false
    rw [cUnknownOp, conditionResult]; rfl
  · rw [evaluateConditions, collectConditionResults_eq_map]
    show applyLogicalOperator [conditionResult env cUncoercible exData5] "AND" = false
    rw [cUncoercible, conditionResult]; rfl
  · rw [evaluateConditions, collectConditionResults_eq_map]
    show applyLogicalOperator
      [conditionResult env cBetweenBad exData5, conditionResult env cBetweenGood exData5]
      "OR" = true
    rw [cBetweenBad, cBetweenGood, conditionResult, conditionResult]; rfl
  · rw [evaluateConditions, collectConditionResults_eq_map]
    show applyLogicalOperator [conditionResult env cBetweenGood exData5] "AND" = true
    rw [cBetweenGood, conditionResult]; rfl
  · rw [evaluateConditions, collectConditionResults_eq_map]
    show applyLogicalOperator [conditionResult env cBetweenMiss exData5] "AND" = false
    rw [cBetweenMiss, conditionResult]; rfl

/-- Witness for C5: the containment equations applied at a concrete list
with a malformed and a well-formed condition. -/
theorem C5_condition_errors_contained_witness :
    evaluateConditions {} [cBetweenBad, cBetweenGood] exData5 "OR" = true :=
  (C5_condition_errors_contained {} [] (Value.vObj []) "AND").2.2.2.2.2.2.2.1

/-! ## Claim C8: field resolution -/

/-- The record from the specification example:
a maps to an object whose b is a two-element array of records. -/
def exData8 : Value :=
  .vObj [("a", .vObj [("b", .vArr [.vObj [("c", .vNum 1)], .vObj [("c", .vNum 2)]])])]

/-- C8: the field resolver follows dot-separated paths with bracketed integer
indices — the specification example "a.b[1].c" resolves to 2 — and yields the
absent sentinel (undefined), never throwing (it is a total function by
construction): for an out-of-bounds index ("a.b[5].c"), for an empty path,
when the current value is null or undefined, and when a plain segment is
missing from the record. -/
theorem C8_field_resolution (data : Value) (fields : List (String × Value))
    (k : String) (keys : List String) :
    (getFieldValue exData8 "a.b[1].c" = .vNum 2) ∧
    (getFieldValue exData8 "a.b[5].c" = .vUndefined) ∧
    (getFieldValue data "" = .vUndefined) ∧
    (getFieldValuePath .vNull (k :: keys) = .vUndefined) ∧
    (getFieldValuePath .vUndefined (k :: keys) = .vUndefined) ∧
    ((strContainsChar k '[' && strContainsChar k ']') = false →
      lookupField fields k = none →
      getFieldValuePath (.vObj fields) (k :: keys) = .vUndefined) := by
  refine ⟨rfl, rfl, rfl, rfl, rfl, fun hbr hlk => ?_⟩
  show getFieldValuePath (.vObj fields) (k :: keys) = .vUndefined
  rw [getFieldValuePath]
  · simp only [hbr, Bool.false_eq_true, if_false, objGet, hlk, Option.getD_none]
    exact getFieldValuePath_undefined keys
  · intro h; exact Value.noConfusion h
  · intro h; exact Value.noConfusion h

/-- Witness for C8: the missing-plain-segment case at a concrete record. -/
theorem C8_field_resolution_witness :
    getFieldValuePath (.vObj [("x", .vNum 1)]) ["y"] = .vUndefined :=
  (C8_field_resolution (.vObj []) [("x", .vNum 1)] "y" []).2.2.2.2.2 rfl rfl

/-! ## Claim C6: trigger matching -/

/-- C6: trigger matching proceeds in declaration order. The statement is
generic in the condition evaluator `evalC` the matcher delegates to; in
particular the second conjunct — a trigger whose type does not match is
skipped with a result independent of `evalC` — formalizes that the condition
evaluator is never invoked for such a trigger. A type-matching trigger with
no conditions (absent or empty) matches immediately; with conditions, a true
evaluation matches immediately and a false one moves on to the next trigger;
an empty trigger list yields no match (false). -/
theorem C6_trigger_declaration_order (evalC : List Condition → Value → Except String Bool)
    (t : Trigger) (ts : List Trigger) (ctx : ExecutionContext) (cs : List Condition) :
    (evaluateTriggersGen evalC [] ctx = .ok false) ∧
    (checkTriggerType t.type ctx = .ok false →
      evaluateTriggersGen evalC (t :: ts) ctx = evaluateTriggersGen evalC ts ctx) ∧
    (checkTriggerType t.type ctx = .ok true →
      (t.conditions = none ∨ t.conditions = some []) →
      evaluateTriggersGen evalC (t :: ts) ctx = .ok true) ∧
    (checkTriggerType t.type ctx = .ok true → t.conditions = some cs → cs ≠ [] →
      evalC cs ctx.data = .ok true → evaluateTriggersGen evalC (t :: ts) ctx = .ok true) ∧
    (checkTriggerType t.type ctx = .ok true → t.conditions = some cs → cs ≠ [] →
      evalC cs ctx.data = .ok false →
      evaluateTriggersGen evalC (t :: ts) ctx = evaluateTriggersGen evalC ts ctx) := by
  refine ⟨rfl, fun h => ?_, fun h hc => ?_, fun h hc hne he => ?_, fun h hc hne he => ?_⟩
  · simp only [evaluateTriggersGen, h, exceptBind_ok]; simp
  · rcases hc with hc | hc <;>
      simp only [evaluateTriggersGen, h, hc, exceptBind_ok, exceptPure, List.length_nil,
        Bool.not_true, Bool.false_eq_true, if_false, gt_iff_lt, Nat.lt_irrefl]
  · cases cs with
    | nil => exact absurd rfl hne
    | cons c0 cs0 =>
      simp only [evaluateTriggersGen, h, hc, he, exceptBind_ok, exceptPure,
        List.length_cons]
      simp
  · cases cs with
    | nil => exact absurd rfl hne
    | cons c0 cs0 =>
      simp only [evaluateTriggersGen, h, hc, he, exceptBind_ok, exceptPure,
        List.length_cons]
      simp

/-- Witness for C6: a condition-free "manual" trigger matches under an
evaluator that always throws (showing the evaluator is irrelevant), and a
single non-matching trigger yields no match. -/
theorem C6_trigger_declaration_order_witness :
    evaluateTriggersGen (fun _ _ => .error "never") [{ type := "manual" }]
      { data := Value.vObj [] } = .ok true ∧
    evaluateTriggersGen (fun _ _ => .error "never") [{ type := "lab_result" }]
      { data := Value.vObj [] } = .ok false := by
  constructor
  · exact (C6_trigger_declaration_order (fun _ _ => .error "never") { type := "manual" } []
      { data := Value.vObj [] } []).2.2.1 rfl (Or.inl rfl)
  · exact ((C6_trigger_declaration_order (fun _ _ => .error "never") { type := "lab_result" } []
      { data := Value.vObj [] } []).2.1 rfl).trans
      (C6_trigger_declaration_order (fun _ _ => .error "never") { type := "lab_result" } []
        { data := Value.vObj [] } []).1

/-! ## Claim C7: guarded action skipping -/

/-- C7: an action whose guard conditions evaluate false is skipped entirely —
no ActionResult entry is emitted for it and processing moves directly to the
rest of the list — while an action that is not skipped contributes a
non-empty block of entries (all carrying its action type) followed by the
results of the remaining actions in declaration order. -/
theorem C7_guard_skip_no_entry (env : JsEnv)
    (handler : Action → ExecutionContext → Except String HandlerOut)
    (alerter : Action → ExecutionContext → Except String Unit)
    (a : Action) (rest : List Action) (ctx : ExecutionContext) (cs : List Condition) :
    (executeActions env handler alerter [] ctx = []) ∧
    (a.conditions = some cs → cs ≠ [] → evaluateConditions env cs ctx.data "AND" = false →
      executeActions env handler alerter (a :: rest) ctx =
        executeActions env handler alerter rest ctx) ∧
    ((∀ cs0, a.conditions = some cs0 →
        cs0 = [] ∨ evaluateConditions env cs0 ctx.data "AND" = true) →
      ∃ es, es ≠ [] ∧ (∀ e ∈ es, e.actionType = a.type) ∧
        executeActions env handler alerter (a :: rest) ctx =
          es ++ executeActions env handler alerter rest ctx) := by
  refine ⟨rfl, fun hc hne hf => ?_, fun hng => ?_⟩
  · cases cs with
    | nil => exact absurd rfl hne
    | cons c0 cs0 =>
      simp only [executeActions, hc, hf, List.length_cons]
      simp
  · have hskip : (match a.conditions with
        | some conds => conds.length > 0 && !(evaluateConditions env conds ctx.data "AND")
        | none => false) = false := by
      cases hac : a.conditions with
      | none => rfl
      | some cs0 =>
        rcases hng cs0 hac with h0 | h0
        · subst h0; rfl
        · simp [h0]
    rw [executeActions, hskip]
    simp only [Bool.false_eq_true, if_false]
    split
    · split
      · split
        · refine ⟨_, ?_, ?_, rfl⟩
          · simp
          · intro x hx; simp at hx; subst hx; rfl
        · refine ⟨_, ?_, ?_, rfl⟩
          · simp
          · intro x hx; simp at hx; rcases hx with hx | hx <;> (subst hx; rfl)
      · refine ⟨_, ?_, ?_, rfl⟩
        · simp
        · intro x hx; simp at hx; subst hx; rfl
    · refine ⟨_, ?_, ?_, rfl⟩
      · simp
      · intro x hx; simp at hx; subst hx; rfl

/-- A guard that fails on the empty payload: requires a field "x" to exist. -/
def cGuardFails : Condition := .mk (some "x") (some "exists") .vNull {} none

/-- Witness for C7: an action guarded by a failing `exists` condition,
followed by an unguarded action, records exactly the unguarded action's
entry. -/
theorem C7_guard_skip_no_entry_witness :
    executeActions {} (fun a _ => .ok { success := true, result := .vStr a.type })
      (fun _ _ => .ok ())
      [{ type := "notify_doctor", conditions := some [cGuardFails] }, { type := "log_event" }]
      {} =
      [{ actionType := "log_event", success := true, result := .vStr "log_event" }] := by
  have h1 := (C7_guard_skip_no_entry {}
    (fun a _ => .ok { success := true, result := .vStr a.type }) (fun _ _ => .ok ())
    { type := "notify_doctor", conditions := some [cGuardFails] } [{ type := "log_event" }]
    {} [cGuardFails]).2.1 rfl (by simp) (by
      rw [evaluateConditions, collectConditionResults_eq_map]
      show applyLogicalOperator [conditionResult {} cGuardFails (Value.vObj [])] "AND" = false
      rw [cGuardFails, conditionResult]; rfl)
  rw [h1]
  rfl

/-! ## Claim C1: the ExecutionResult success invariant -/

/-- C1: for every workflow, context and collaborator behavior, the
orchestrator's result has success = true iff no recorded ActionResult failed
and no top-level error was set (the disabled-rule and escaping-exception
outcomes carry an error and are failures); and in the no-trigger-match case
the run reports success with an empty ActionResult list and the no-match
indicator message. -/
theorem C1_execution_result_success_invariant (env : JsEnv)
    (handler : Action → ExecutionContext → Except String HandlerOut)
    (alerter : Action → ExecutionContext → Except String Unit)
    (w : Workflow) (ctx : ExecutionContext) :
    ((executeWorkflow env handler alerter w ctx).success = true ↔
      ((∀ r ∈ (executeWorkflow env handler alerter w ctx).actionResults, r.success = true) ∧
        (executeWorkflow env handler alerter w ctx).error = none)) ∧
    (w.enabled = true → evaluateTriggers env w ctx = .ok false →
      executeWorkflow env handler alerter w ctx =
        { success := true, actionResults := [], duration := 0, error := none,
          message := some "No triggers matched" }) := by
  constructor
  · by_cases he : w.enabled
    · cases ht : evaluateTriggers env w ctx with
      | error e =>
        simp [executeWorkflow, executeWorkflowBody, he, ht, exceptBind_error]
      | ok b =>
        cases b with
        | false =>
          simp [executeWorkflow, executeWorkflowBody, he, ht, exceptBind_ok, exceptPure]
        | true =>
          simp [executeWorkflow, executeWorkflowBody, he, ht, exceptBind_ok, exceptPure,
            List.all_eq_true]
    · simp [executeWorkflow, executeWorkflowBody, he]
  · intro he ht
    simp [executeWorkflow, executeWorkflowBody, he, ht, exceptBind_ok, exceptPure]

/-- Witness for C1: an enabled workflow with no triggers yields the explicit
no-match outcome: success, no action results, the no-match message. -/
theorem C1_execution_result_success_invariant_witness :
    executeWorkflow {} (fun _ _ => .ok { success := true }) (fun _ _ => .ok ())
      { enabled := true } {} =
      { success := true, actionResults := [], duration := 0, error := none,
        message := some "No triggers matched" } :=
  (C1_execution_result_success_invariant {} (fun _ _ => .ok { success := true })
    (fun _ _ => .ok ()) { enabled := true } {}).2 rfl rfl

/-! ## Claim C2: the top-level catch -/

/-- C2: `executeWorkflow` always returns an ExecutionResult and never raises:
it is a total function of the body's outcome — a body that escapes with an
exception yields a result with success = false, an empty ActionResult list
and the exception's message as the top-level error string, and a body that
completes is returned unchanged. -/
theorem C2_entry_point_never_raises (env : JsEnv)
    (handler : Action → ExecutionContext → Except String HandlerOut)
    (alerter : Action → ExecutionContext → Except String Unit)
    (w : Workflow) (ctx : ExecutionContext) (msg : String) (r : ExecutionResult) :
    (executeWorkflowBody env handler alerter w ctx = .error msg →
      executeWorkflow env handler alerter w ctx =
        { success := false, actionResults := [], duration := 0, error := some msg,
          message := none }) ∧
    (executeWorkflowBody env handler alerter w ctx = .ok r →
      executeWorkflow env handler alerter w ctx = r) := by
  constructor <;> (intro h; simp [executeWorkflow, h])

/-- Witness for C2: dereferencing an undefined data payload inside trigger
evaluation throws before any action dispatch; the entry point catches it and
reports the failure shape with the exception's message. -/
theorem C2_entry_point_never_raises_witness :
    executeWorkflow {} (fun _ _ => .ok { success := true }) (fun _ _ => .ok ())
      { enabled := true, triggers := [{ type := "lab_result" }] }
      { triggerType := some "other", data := .vUndefined } =
      { success := false, actionResults := [], duration := 0,
        error := some "Cannot read properties of undefined (reading triggerType)",
        message := none } :=
  (C2_entry_point_never_raises {} (fun _ _ => .ok { success := true }) (fun _ _ => .ok ())
    { enabled := true, triggers := [{ type := "lab_result" }] }
    { triggerType := some "other", data := .vUndefined }
    "Cannot read properties of undefined (reading triggerType)"
    { success := true, actionResults := [] }).1 rfl

/-! ## Claim C10: the "manual" trigger type matches everything -/

/-- On a context whose data payload is dereferenceable (not null/undefined),
the trigger-type check never throws. -/
theorem checkTriggerType_never_throws (ty : String) (ctx : ExecutionContext)
    (h1 : ctx.data ≠ Value.vUndefined) (h2 : ctx.data ≠ Value.vNull) :
    ∃ b, checkTriggerType ty ctx = .ok b := by
  simp only [checkTriggerType, jsGet_ok _ _ h1 h2, exceptBind_ok, exceptPure]
  split_ifs <;> exact ⟨_, rfl⟩

/-- The "manual" disjunct of the type check is reached and accepts whenever
the earlier disjuncts did not already accept. -/
theorem checkTriggerType_manual (ctx : ExecutionContext)
    (h1 : ctx.data ≠ Value.vUndefined) (h2 : ctx.data ≠ Value.vNull) :
    checkTriggerType "manual" ctx = .ok true := by
  simp only [checkTriggerType, jsGet_ok _ _ h1 h2, exceptBind_ok, exceptPure]
  split_ifs <;> simp_all

/-- C10: for every context with a dereferenceable data payload, the lambda
trigger-type check classifies a trigger of declared type "manual" as
type-matching unconditionally — whatever the context's triggerType field and
data contents — and consequently any trigger list containing a condition-free
"manual" trigger matches, under every condition evaluator. -/
theorem C10_manual_matches_every_event (ctx : ExecutionContext)
    (triggers : List Trigger) (t : Trigger)
    (evalC : List Condition → Value → Except String Bool) :
    (ctx.data ≠ Value.vUndefined → ctx.data ≠ Value.vNull →
      checkTriggerType "manual" ctx = .ok true) ∧
    (ctx.data ≠ Value.vUndefined → ctx.data ≠ Value.vNull →
      t ∈ triggers → t.type = "manual" →
      (t.conditions = none ∨ t.conditions = some []) →
      evaluateTriggersGen evalC triggers ctx = .ok true) := by
  refine ⟨fun h1 h2 => checkTriggerType_manual ctx h1 h2,
    fun h1 h2 hmem hty hcond => ?_⟩
  induction triggers with
  | nil => cases hmem
  | cons hd tl ih =>
    rcases List.mem_cons.mp hmem with heq | hmem2
    · subst heq
      have hm : checkTriggerType t.type ctx = .ok true := by
        rw [hty]; exact checkTriggerType_manual ctx h1 h2
      rcases hcond with hc | hc <;>
        simp only [evaluateTriggersGen, hm, hc, exceptBind_ok, exceptPure, List.length_nil,
          Bool.not_true, Bool.false_eq_true, if_false, gt_iff_lt, Nat.lt_irrefl]
    · obtain ⟨b, hb⟩ := checkTriggerType_never_throws hd.type ctx h1 h2
      cases b with
      | false =>
        simp only [evaluateTriggersGen, hb, exceptBind_ok, Bool.not_false, if_true]
        exact ih hmem2
      | true =>
        cases hcs : hd.conditions with
        | none =>
          simp only [evaluateTriggersGen, hb, hcs, exceptBind_ok, exceptPure]; simp
        | some cs =>
          cases cs with
          | nil =>
            simp only [evaluateTriggersGen, hb, hcs, exceptBind_ok, exceptPure,
              List.length_nil]; simp
          | cons c0 cs0 =>
            cases hev : evalC (c0 :: cs0) ctx.data with
            | error e =>
              simp only [evaluateTriggersGen, hb, hcs, hev, exceptBind_ok, List.length_cons]
              simp only [Bool.not_true, Bool.false_eq_true, if_false, gt_iff_lt,
                Nat.succ_pos, if_pos]
              exact ih hmem2
            | ok bb =>
              cases bb with
              | true =>
                simp only [evaluateTriggersGen, hb, hcs, hev, exceptBind_ok, exceptPure,
                  List.length_cons]
                simp
              | false =>
                simp only [evaluateTriggersGen, hb, hcs, hev, exceptBind_ok,
                  List.length_cons]
                simp only [Bool.not_true, Bool.false_eq_true, if_false, gt_iff_lt,
                  Nat.succ_pos, if_pos]
                exact ih hmem2

/-- Witness for C10: a "manual" trigger declared after an unrelated trigger
matches an event context that mentions neither, under an always-throwing
condition evaluator. -/
theorem C10_manual_matches_every_event_witness :
    evaluateTriggersGen (fun _ _ => .error "never")
      [{ type := "vital_signs" }, { type := "manual" }]
      { triggerType := some "webhook", data := .vObj [("type", .vStr "lab_result")] } =
      .ok true :=
  (C10_manual_matches_every_event
    { triggerType := some "webhook", data := .vObj [("type", .vStr "lab_result")] }
    [{ type := "vital_signs" }, { type := "manual" }] { type := "manual" }
    (fun _ _ => .error "never")).2 (fun h => Value.noConfusion h)
    (fun h => Value.noConfusion h) (by simp) rfl (Or.inl rfl)

/-! ## Claim C9: interpolation resolution order -/

/-- C9: each placeholder's trimmed token resolves in this order — (a) a
context-data key of that exact name; (b) the well-known context fields
(execution id, workflow/rule id, timestamp, subject/patient id, actor/user
id); (c) for dotted names, a nested-path lookup into context data — and a
token that resolves at no stage is left verbatim in the output (the whole
interpolator is a total function, so it never throws, and the concrete
conjuncts show an unresolved token surviving verbatim rather than being
blanked, alongside resolved tokens). -/
theorem C9_interpolation_resolution_order (context : CoreExecutionContext)
    (varChars : List Char) :
    ((objGet context.data (jsTrim (String.mk varChars)) ≠ .vUndefined →
      resolveVariable context varChars =
        jsToString (objGet context.data (jsTrim (String.mk varChars)))) ∧
    (objGet context.data (jsTrim (String.mk varChars)) = .vUndefined →
      jsTrim (String.mk varChars) = "executionId" →
      resolveVariable context varChars = context.executionId) ∧
    (objGet context.data (jsTrim (String.mk varChars)) = .vUndefined →
      jsTrim (String.mk varChars) = "workflowId" →
      resolveVariable context varChars = context.workflowId) ∧
    (objGet context.data (jsTrim (String.mk varChars)) = .vUndefined →
      jsTrim (String.mk varChars) = "timestamp" →
      resolveVariable context varChars = context.timestampIso) ∧
    (objGet context.data (jsTrim (String.mk varChars)) = .vUndefined →
      jsTrim (String.mk varChars) = "patientId" →
      resolveVariable context varChars = context.patientId.getD "") ∧
    (objGet context.data (jsTrim (String.mk varChars)) = .vUndefined →
      jsTrim (String.mk varChars) = "userId" →
      resolveVariable context varChars = context.userId.getD "")) ∧
    ((objGet context.data (jsTrim (String.mk varChars)) = .vUndefined →
      jsTrim (String.mk varChars) ≠ "executionId" →
      jsTrim (String.mk varChars) ≠ "workflowId" →
      jsTrim (String.mk varChars) ≠ "timestamp" →
      jsTrim (String.mk varChars) ≠ "patientId" →
      jsTrim (String.mk varChars) ≠ "userId" →
      strContainsChar (jsTrim (String.mk varChars)) '.' = true →
      getNestedValue context.data (jsTrim (String.mk varChars)) ≠ .vUndefined →
      resolveVariable context varChars =
        jsToString (getNestedValue context.data (jsTrim (String.mk varChars)))) ∧
    (objGet context.data (jsTrim (String.mk varChars)) = .vUndefined →
      jsTrim (String.mk varChars) ≠ "executionId" →
      jsTrim (String.mk varChars) ≠ "workflowId" →
      jsTrim (String.mk varChars) ≠ "timestamp" →
      jsTrim (String.mk varChars) ≠ "patientId" →
      jsTrim (String.mk varChars) ≠ "userId" →
      (strContainsChar (jsTrim (String.mk varChars)) '.' = false ∨
        getNestedValue context.data (jsTrim (String.mk varChars)) = .vUndefined) →
      resolveVariable context varChars =
        String.mk (lbChar :: lbChar :: (varChars ++ [rbChar, rbChar])))) ∧
    ((interpolateString { data := Value.vObj [] } "Hello \x7b\x7bunknown\x7d\x7d" =
      "Hello \x7b\x7bunknown\x7d\x7d") ∧
    (interpolateString { patientId := some "PT001", data := Value.vObj [] }
      "Patient \x7b\x7bpatientId\x7d\x7d" = "Patient PT001") ∧
    (interpolateString { data := Value.vObj [("value", Value.vStr "high")] }
      "level \x7b\x7bvalue\x7d\x7d" = "level high") ∧
    (interpolateString { data := Value.vObj [("a", Value.vObj [("b", Value.vStr "x")])] }
      "v=\x7b\x7ba.b\x7d\x7d and \x7b\x7ba.c\x7d\x7d" =
      "v=x and \x7b\x7ba.c\x7d\x7d")) := by
  refine ⟨⟨fun h1 => ?_, fun h1 h2 => ?_, fun h1 h2 => ?_, fun h1 h2 => ?_, fun h1 h2 => ?_,
    fun h1 h2 => ?_⟩, ⟨fun h1 h2 h3 h4 h5 h6 h7 h8 => ?_, fun h1 h2 h3 h4 h5 h6 h7 => ?_⟩,
    rfl, rfl, rfl, rfl⟩
  · simp only [resolveVariable]
    split_ifs <;> simp_all [strictEq_undefined_iff]
  · simp only [resolveVariable]
    split_ifs <;> simp_all [strictEq_undefined_iff, Value.strictEq]
  · simp only [resolveVariable]
    split_ifs <;> simp_all [strictEq_undefined_iff, Value.strictEq]
  · simp only [resolveVariable]
    split_ifs <;> simp_all [strictEq_undefined_iff, Value.strictEq]
  · simp only [resolveVariable]
    split_ifs <;> simp_all [strictEq_undefined_iff, Value.strictEq]
  · simp only [resolveVariable]
    split_ifs <;> simp_all [strictEq_undefined_iff, Value.strictEq]
  · simp only [resolveVariable]
    split_ifs <;> simp_all [strictEq_undefined_iff, Value.strictEq]
  · simp only [resolveVariable]
    rcases h7 with h7 | h7 <;>
      (split_ifs <;> simp_all [strictEq_undefined_iff, Value.strictEq])

/-- Witness for C9: stage (a) at a concrete context — the token "value"
resolves from context data; and the verbatim fallback at a concrete token
"unknown" on an empty context. -/
theorem C9_interpolation_resolution_order_witness :
    resolveVariable { data := Value.vObj [("value", Value.vStr "high")] }
      ("value".toList) = "high" ∧
    resolveVariable { data := Value.vObj [] } ("unknown".toList) =
      String.mk (lbChar :: lbChar :: ("unknown".toList ++ [rbChar, rbChar])) := by
  constructor
  · have h := (C9_interpolation_resolution_order
      { data := Value.vObj [("value", Value.vStr "high")] } ("value".toList)).1.1
      (by intro hh; exact Value.noConfusion hh)
    exact h.trans rfl
  · have h := (C9_interpolation_resolution_order { data := Value.vObj [] }
      ("unknown".toList)).2.1.2 rfl (by decide) (by decide) (by decide) (by decide)
      (by decide) (Or.inl rfl)
    exact h

end ClinicalFire
